import Mathlib

/-!
# Verification of the RAGbuilder model service

A shallow embedding of the model-service core of the RAGbuilder repository,
together with theorems settling the specification claims about it.

The embedding follows the Python sources:
* `model_service/core/batch.py` (`batch_invoke_with_retry`),
* `model_service/vectorstores/pinecone_vecstore.py` (`PineconeVectorStoreWrapper.delete`),
* `model_service/models/_abstractmodel.py` (`AbstractModel.deindex`),
* `model_service/models/abm_router_v1_si.py` (`ABMRouterV1SI.index` / `.invoke`),
* `model_service/models/rag_rerank_v1_ch.py` and `model_service/components/reranking.py`,
* `app/ops/project_ops.py` (`check_file_metadatas`, `clean_system_metadata`).

External collaborators (language models, embedding providers, the Pinecone
backend, the Cohere reranker) are modelled as oracle parameters; overflow-free
Python integers are modelled as `Nat`, Python lists as `List`, Python dicts as
insertion-ordered association lists, and Python exceptions as `Except.error`.
-/

namespace RAGbuilder

/-! ## Batch invocation (`model_service/core/batch.py`)

`batch_invoke_with_retry(chain, input_list, max_retries=5, user_tier=1)`:

```python
results = []
max_retries = 5
delay_increment = 60
batch_size = min(30 if user_tier < 4 else 80, len(input_list))
for i in range(0, len(input_list), batch_size):
    batch = input_list[i: i + batch_size]
    retries = 0
    while retries <= max_retries:
        try:
            result = chain.batch(batch)
            results.append(result)
            time.sleep(2)
            break
        except RateLimitError:
            delay = (retries + 1) * delay_increment
            time.sleep(delay)
            retries += 1
            if retries > max_retries:
                break
return results
```

The external chain is modelled by a success oracle `beh : Nat → Nat → Bool`
(`beh b r` is true when the `r`-th attempt at batch number `b` succeeds and
false when `chain.batch` raises `RateLimitError`) and a result oracle
`res : List α → β` standing for the value of `chain.batch(batch)` on success.
`time.sleep` calls are recorded in a trace. When `input_list` is empty the
computed `batch_size` is `0` and Python's `range(0, 0, 0)` raises
`ValueError: range() arg 3 must not be zero`; this is modelled by the
`Except.error` branch. -/

/-- The `input_list[i : i + batch_size]` slicing loop, fuelled so that it is a
structural recursion; `chunkList` below instantiates the fuel with the list
length, which is enough whenever `1 ≤ bs`. -/
def chunkListAux (bs : Nat) : Nat → List α → List (List α)
  | 0, _ => []
  | _ + 1, [] => []
  | fuel + 1, x :: xs => ((x :: xs).take bs) :: chunkListAux bs fuel ((x :: xs).drop bs)

/-- Partition `l` into consecutive slices of length `bs` (the last slice may be
shorter), as the `for i in range(0, len(input_list), batch_size)` loop does. -/
def chunkList (bs : Nat) (l : List α) : List (List α) :=
  chunkListAux bs l.length l

/-- Fuelled version of the `while retries <= max_retries` loop for one batch.
Returns whether the batch eventually succeeded, and the trace of `time.sleep`
durations (a `2` after a success, `(retries + 1) * 60` after each
`RateLimitError`). -/
def runBatchLoopAux (ok : Nat → Bool) (maxR : Nat) : Nat → Nat → Option Unit × List Nat
  | 0, _ => (none, [])
  | fuel + 1, retries =>
    if retries ≤ maxR then
      if ok retries then
        (some (), [2])
      else
        let rest := runBatchLoopAux ok maxR fuel (retries + 1)
        (rest.1, (retries + 1) * 60 :: rest.2)
    else (none, [])

/-- The retry loop for one batch, entered with retry counter `retries`. -/
def runBatchLoop (ok : Nat → Bool) (maxR retries : Nat) : Option Unit × List Nat :=
  runBatchLoopAux ok maxR (maxR + 1 - retries) retries

/-- Accumulated observable outcome of `batch_invoke_with_retry`: the returned
`results` list and the trace of sleep durations. -/
structure BatchOutcome (β : Type) where
  results : List β
  sleeps : List Nat
deriving DecidableEq, Repr

/-- The `for` loop over batches: batch number `b` is attempted with the retry
loop; on success its result is appended, on exhaustion of the retry budget the
batch is skipped and the loop moves on. -/
def processBatches (beh : Nat → Nat → Bool) (res : List α → β) (maxR : Nat) :
    Nat → List (List α) → BatchOutcome β
  | _, [] => ⟨[], []⟩
  | b, batch :: rest =>
    let attempt := runBatchLoop (beh b) maxR 0
    let tail := processBatches beh res maxR (b + 1) rest
    match attempt.1 with
    | some _ => ⟨res batch :: tail.results, attempt.2 ++ tail.sleeps⟩
    | none => ⟨tail.results, attempt.2 ++ tail.sleeps⟩

/-- Embedding of `batch_invoke_with_retry` from `model_service/core/batch.py`.  Note that the
body rebinds `max_retries = 5`, shadowing the function argument, exactly as the
Python source does. -/
def batch_invoke_with_retry (beh : Nat → Nat → Bool) (res : List α → β)
    (input_list : List α) (max_retries : Nat := 5) (user_tier : Nat := 1) :
    Except String (BatchOutcome β) :=
  let max_retries := 5
  let batch_size := min (if user_tier < 4 then 30 else 80) input_list.length
  if batch_size = 0 then
    .error "ValueError: range() arg 3 must not be zero"
  else
    .ok (processBatches beh res max_retries 0 (chunkList batch_size input_list))

/-! ### Chunking lemmas -/

theorem chunkListAux_join (bs : Nat) (hbs : 1 ≤ bs) :
    ∀ (fuel : Nat) (l : List α), l.length ≤ fuel → (chunkListAux bs fuel l).flatten = l := by
  intro fuel
  induction fuel with
  | zero =>
    intro l hl
    have : l = [] := List.length_eq_zero.mp (Nat.le_zero.mp hl)
    subst this
    rfl
  | succ fuel ih =>
    intro l hl
    match l with
    | [] => rfl
    | x :: xs =>
      have hdrop : ((x :: xs).drop bs).length ≤ fuel := by
        simp only [List.length_drop, List.length_cons]
        simp only [List.length_cons] at hl
        omega
      simp only [chunkListAux, List.flatten_cons, ih _ hdrop, List.take_append_drop]

theorem chunkListAux_length_le (bs : Nat) (hbs : 1 ≤ bs) :
    ∀ (fuel : Nat) (l : List α) (c : List α),
      c ∈ chunkListAux bs fuel l → c.length ≤ bs ∧ c ≠ [] := by
  intro fuel
  induction fuel with
  | zero => intro l c hc; simp [chunkListAux] at hc
  | succ fuel ih =>
    intro l c hc
    match l with
    | [] => simp [chunkListAux] at hc
    | x :: xs =>
      simp only [chunkListAux, List.mem_cons] at hc
      rcases hc with hc | hc
      · subst hc
        constructor
        · simp only [List.length_take]
          exact Nat.min_le_left _ _
        · intro hnil
          have h0 := congrArg List.length hnil
          simp only [List.length_take, List.length_cons, List.length_nil] at h0
          omega
      · exact ih _ _ hc

theorem chunkListAux_ne_nil (bs : Nat) (fuel : Nat) (l : List α) :
    chunkListAux bs fuel l ≠ [] → l ≠ [] := by
  intro h hl
  subst hl
  cases fuel <;> simp [chunkListAux] at h

theorem chunkListAux_dropLast (bs : Nat) (hbs : 1 ≤ bs) :
    ∀ (fuel : Nat) (l : List α) (c : List α),
      l.length ≤ fuel → c ∈ (chunkListAux bs fuel l).dropLast → c.length = bs := by
  intro fuel
  induction fuel with
  | zero => intro l c _ hc; simp [chunkListAux] at hc
  | succ fuel ih =>
    intro l c hl hc
    match l with
    | [] => simp [chunkListAux] at hc
    | x :: xs =>
      simp only [chunkListAux] at hc
      by_cases hrest : chunkListAux bs fuel ((x :: xs).drop bs) = []
      · rw [hrest] at hc
        simp at hc
      · rw [List.dropLast_cons_of_ne_nil hrest, List.mem_cons] at hc
        have hdrop : ((x :: xs).drop bs).length ≤ fuel := by
          simp only [List.length_drop, List.length_cons]
          simp only [List.length_cons] at hl
          omega
        rcases hc with hc | hc
        · subst hc
          have hne : (x :: xs).drop bs ≠ [] := chunkListAux_ne_nil bs fuel _ hrest
          have hlen : bs < (x :: xs).length := by
            by_contra hcon
            push_neg at hcon
            exact hne (List.drop_eq_nil_of_le hcon)
          simp only [List.length_take]
          omega
        · exact ih _ _ hdrop hc

theorem chunkList_join (bs : Nat) (hbs : 1 ≤ bs) (l : List α) :
    (chunkList bs l).flatten = l :=
  chunkListAux_join bs hbs l.length l le_rfl

/-! ### Retry-loop lemmas -/

theorem runBatchLoopAux_success (ok : Nat → Bool) (maxR : Nat) :
    ∀ (k retries : Nat), retries + k ≤ maxR →
      (∀ r, r < k → ok (retries + r) = false) → ok (retries + k) = true →
      runBatchLoopAux ok maxR (maxR + 1 - retries) retries =
        (some (), ((List.range' (retries + 1) k).map (· * 60)) ++ [2]) := by
  intro k
  induction k with
  | zero =>
    intro retries hle _ hok
    have hfuel : maxR + 1 - retries = (maxR - retries) + 1 := by omega
    rw [hfuel]
    simp only [runBatchLoopAux, if_pos (by omega : retries ≤ maxR)]
    rw [Nat.add_zero] at hok
    rw [hok]
    simp
  | succ k ih =>
    intro retries hle hfail hok
    have hfuel : maxR + 1 - retries = (maxR - retries) + 1 := by omega
    rw [hfuel]
    simp only [runBatchLoopAux, if_pos (by omega : retries ≤ maxR)]
    have h0 : ok retries = false := by
      have := hfail 0 (Nat.succ_pos k)
      simpa using this
    rw [h0]
    simp only [Bool.false_eq_true, if_false]
    have hrec : maxR - retries = maxR + 1 - (retries + 1) := by omega
    rw [hrec]
    rw [ih (retries + 1) (by omega)
      (fun r hr => by
        have := hfail (r + 1) (by omega)
        simpa [Nat.add_assoc, Nat.add_comm 1 r] using this)
      (by
        have : retries + 1 + k = retries + (k + 1) := by omega
        rw [this]
        exact hok)]
    rw [List.range'_succ (retries + 1) k 1, List.map_cons]
    simp

theorem runBatchLoopAux_fail (ok : Nat → Bool) (maxR : Nat) :
    ∀ (fuel retries : Nat), fuel = maxR + 1 - retries →
      (∀ r, retries ≤ r → r ≤ maxR → ok r = false) →
      runBatchLoopAux ok maxR fuel retries =
        (none, (List.range' (retries + 1) (maxR + 1 - retries)).map (· * 60)) := by
  intro fuel
  induction fuel with
  | zero =>
    intro retries hfuel _
    rw [← hfuel]
    simp [runBatchLoopAux]
  | succ fuel ih =>
    intro retries hfuel hfail
    have hret : retries ≤ maxR := by omega
    simp only [runBatchLoopAux, if_pos hret]
    rw [hfail retries le_rfl hret]
    simp only [Bool.false_eq_true, if_false]
    rw [ih (retries + 1) (by omega) (fun r hr hr' => hfail r (by omega) hr')]
    have hfuel' : maxR + 1 - retries = (maxR + 1 - (retries + 1)) + 1 := by omega
    rw [hfuel', List.range'_succ (retries + 1) _ 1, List.map_cons]

theorem runBatchLoop_success (ok : Nat → Bool) (maxR k : Nat) (hk : k ≤ maxR)
    (hfail : ∀ r, r < k → ok r = false) (hok : ok k = true) :
    runBatchLoop ok maxR 0 = (some (), ((List.range' 1 k).map (· * 60)) ++ [2]) := by
  have := runBatchLoopAux_success ok maxR k 0 (by omega)
    (fun r hr => by simpa using hfail r hr) (by simpa using hok)
  simpa [runBatchLoop] using this

theorem runBatchLoop_fail (ok : Nat → Bool) (maxR : Nat)
    (hfail : ∀ r, r ≤ maxR → ok r = false) :
    runBatchLoop ok maxR 0 = (none, (List.range' 1 (maxR + 1)).map (· * 60)) := by
  have := runBatchLoopAux_fail ok maxR (maxR + 1) 0 (by omega)
    (fun r _ hr => hfail r hr)
  simpa [runBatchLoop] using this

/-! ### Claims C1, C2, C10 -/

/-- C1 (amended): for every **non-empty** input list and user tier,
`batch_invoke_with_retry` partitions the inputs into consecutive batches of
size `min(30 if userTier < 4 else 80, len(inputs))`: the batches concatenate
back to the input, every batch except possibly the last has exactly that size,
no batch is empty or larger; in particular with `userTier = 1` and 100 inputs
there are 4 batches of sizes `[30, 30, 30, 10]` and with `userTier = 4` and
100 inputs there are 2 batches of sizes `[80, 20]`.  (The original claim's
"every input list" fails for the empty list, see
`batch_invoke_empty_list_raises`.) -/
theorem batch_invoke_partitions_inputs :
    (∀ (beh : Nat → Nat → Bool) (res : List Nat → List Nat) (l : List Nat)
        (m tier : Nat), l ≠ [] →
        batch_invoke_with_retry beh res l m tier =
          .ok (processBatches beh res 5 0
            (chunkList (min (if tier < 4 then 30 else 80) l.length) l)))
    ∧ (∀ (l : List Nat) (bs : Nat), 1 ≤ bs →
        (chunkList bs l).flatten = l
        ∧ (∀ c ∈ (chunkList bs l).dropLast, c.length = bs)
        ∧ (∀ c ∈ chunkList bs l, c.length ≤ bs ∧ c ≠ []))
    ∧ (chunkList (min 30 (List.range 100).length) (List.range 100)).map List.length
        = [30, 30, 30, 10]
    ∧ (chunkList (min 80 (List.range 100).length) (List.range 100)).map List.length
        = [80, 20] := by
  refine ⟨?_, ?_, by decide, by decide⟩
  · intro beh res l m tier hl
    have hpos : 0 < l.length := List.length_pos.mpr hl
    have hne : ¬ (min (if tier < 4 then 30 else 80) l.length = 0) := by
      rcases lt_or_ge tier 4 with h4 | h4
      · rw [if_pos h4]; omega
      · rw [if_neg (by omega)]; omega
    simp only [batch_invoke_with_retry]
    rw [if_neg hne]
  · intro l bs hbs
    exact ⟨chunkList_join bs hbs l,
      fun c hc => chunkListAux_dropLast bs hbs l.length l c le_rfl hc,
      fun c hc => chunkListAux_length_le bs hbs l.length l c hc⟩

/-- Witness for `batch_invoke_partitions_inputs` at concrete inputs. -/
theorem batch_invoke_partitions_inputs_witness :
    batch_invoke_with_retry (fun _ _ => true) (fun l : List Nat => l) [7, 8] 5 1 =
      .ok (processBatches (fun _ _ => true) (fun l : List Nat => l) 5 0
        (chunkList (min 30 2) [7, 8]))
    ∧ (chunkList 2 [1, 2, 3]).flatten = [1, 2, 3] :=
  ⟨batch_invoke_partitions_inputs.1 _ _ [7, 8] 5 1 (by decide),
   (batch_invoke_partitions_inputs.2.1 [1, 2, 3] 2 (by decide)).1⟩

/-- C1: counterexample to the original claim.  With an empty input list the
computed batch size is `0` and Python's `range(0, 0, 0)` raises
`ValueError` instead of partitioning the (empty) input into batches. -/
theorem batch_invoke_empty_list_raises :
    batch_invoke_with_retry (fun _ _ => true) (fun l : List Nat => l) [] 5 1 =
      .error "ValueError: range() arg 3 must not be zero" := rfl

/-- C2: on a rate-limit failure at retry count `r`, the loop sleeps
`(r + 1) * 60` time-units and retries the same batch — a batch that first
succeeds at attempt `k` produces exactly the sleep trace
`[1*60, 2*60, …, k*60, 2]`; a batch whose six permitted attempts (retry
ceiling 5) all fail produces the full backoff trace `[60, …, 360]`, is
absent from the returned results, and every later batch is still attempted
(the fold continues with the remaining batches). -/
theorem batch_retry_backoff_and_skip :
    (∀ (ok : Nat → Bool) (k : Nat), k ≤ 5 →
        (∀ r, r < k → ok r = false) → ok k = true →
        runBatchLoop ok 5 0 = (some (), ((List.range' 1 k).map (· * 60)) ++ [2]))
    ∧ (∀ ok : Nat → Bool, (∀ r, r ≤ 5 → ok r = false) →
        runBatchLoop ok 5 0 = (none, [60, 120, 180, 240, 300, 360]))
    ∧ (∀ (beh : Nat → Nat → Bool) (res : List Nat → List Nat) (b : Nat)
        (batch : List Nat) (rest : List (List Nat)),
        (∀ r, r ≤ 5 → beh b r = false) →
        (processBatches beh res 5 b (batch :: rest)).results =
          (processBatches beh res 5 (b + 1) rest).results) := by
  refine ⟨fun ok k hk hfail hok => runBatchLoop_success ok 5 k hk hfail hok, ?_, ?_⟩
  · intro ok hfail
    rw [runBatchLoop_fail ok 5 hfail]
    rfl
  · intro beh res b batch rest hfail
    have hattempt := runBatchLoop_fail (beh b) 5 hfail
    simp only [processBatches, hattempt]

/-- Witness for `batch_retry_backoff_and_skip` at concrete inputs: a batch
succeeding on its third attempt sleeps `[60, 120, 2]`; an always-failing
batch sleeps the whole backoff ladder and is skipped while the next batch's
result is still returned. -/
theorem batch_retry_backoff_and_skip_witness :
    runBatchLoop (fun r => decide (r = 2)) 5 0 = (some (), [60, 120, 2])
    ∧ runBatchLoop (fun _ => false) 5 0 = (none, [60, 120, 180, 240, 300, 360])
    ∧ (processBatches (fun b _ => decide (b = 1)) (fun l : List Nat => l) 5 0
        [[1], [2]]).results =
      (processBatches (fun b _ => decide (b = 1)) (fun l : List Nat => l) 5 1
        [[2]]).results :=
  ⟨by
    have := batch_retry_backoff_and_skip.1 (fun r => decide (r = 2)) 2
      (by decide) (by decide) (by decide)
    simpa using this,
   batch_retry_backoff_and_skip.2.1 (fun _ => false) (fun _ _ => rfl),
   batch_retry_backoff_and_skip.2.2 (fun b _ => decide (b = 1))
     (fun l => l) 0 [1] [[2]] (by decide)⟩

/-- C10: `batch_invoke_with_retry` ignores its `max_retries` argument — the
body unconditionally rebinds `max_retries = 5` before use, so the call
behaves identically for any two argument values. -/
theorem batch_invoke_ignores_max_retries :
    ∀ (beh : Nat → Nat → Bool) (res : List Nat → List Nat) (l : List Nat)
      (m1 m2 tier : Nat),
      batch_invoke_with_retry beh res l m1 tier =
        batch_invoke_with_retry beh res l m2 tier :=
  fun _ _ _ _ _ _ => rfl

/-! ## Vector store deletion
(`model_service/vectorstores/pinecone_vecstore.py`,
`model_service/models/_abstractmodel.py`)

`PineconeVectorStoreWrapper.delete(ids=None, delete_all=None, namespace=None,
filter=None)`:

```python
if namespace is None:
    namespace = self._namespace
if delete_all:
    self._index.delete(delete_all=True, namespace=namespace, **kwargs)
elif ids is not None:
    chunk_size = 1000
    for i in range(0, len(ids), chunk_size):
        chunk = ids[i : i + chunk_size]
        self._index.delete(ids=chunk, namespace=namespace, **kwargs)
elif filter is not None:
    results = self._index.query(
        vector=self._embedding.embed_query(""), top_k=1000,
        include_metadata=True, namespace=namespace, filter=filter)
    ids = [match["id"] for match in results["matches"]]
    if len(ids) > 0:
        self._index.delete(ids=ids, namespace=namespace, **kwargs)
else:
    raise ValueError("Either ids, delete_all, or filter must be provided.")
```

The Pinecone backend is modelled as a list of stored vectors, each with a
namespace, an id and a metadata association list.  `query` with the
empty-query embedding returns up to `top_k` vectors of the namespace matching
the filter (the similarity order of an empty-query embedding is not specified
by the backend; the model returns them in store order).  Along with the new
store contents, the model returns the list of id batches passed to
`self._index.delete(ids=..)` so that payload-size claims can be stated. -/

/-- A vector stored in the Pinecone index. -/
structure StoredVec where
  ns : String
  id : String
  meta : List (String × String)
deriving DecidableEq, Repr

/-- Pinecone metadata filter semantics for the flat equality filters the
repository uses: every key of the filter must be present in the metadata with
the given value. -/
def matchesFilter (flt : List (String × String)) (meta : List (String × String)) : Bool :=
  flt.all fun kv => meta.lookup kv.1 == some kv.2

/-- Whether a stored vector lies in `ns` and satisfies the filter. -/
def vecMatches (ns : String) (flt : List (String × String)) (v : StoredVec) : Bool :=
  v.ns == ns && matchesFilter flt v.meta

/-- Backend query `self._index.query(vector=embed(""), top_k, namespace, filter)`, projected
to the ids of the matches: up to `topK` matching vectors of the namespace. -/
def queryIds (store : List StoredVec) (ns : String) (flt : List (String × String))
    (topK : Nat) : List String :=
  ((store.filter (vecMatches ns flt)).map StoredVec.id).take topK

/-- Backend delete `self._index.delete(ids=chunk, namespace=namespace)`: removes every vector
of the namespace whose id occurs in `ids`. -/
def indexDeleteByIds (store : List StoredVec) (ns : String) (ids : List String) :
    List StoredVec :=
  store.filter fun v => !(v.ns == ns && ids.contains v.id)

/-- Embedding of `PineconeVectorStoreWrapper.delete`.  Returns the new store contents
together with the list of id batches passed to `self._index.delete(ids=..)`;
a raised `ValueError` is modelled as `Except.error` (the store is untouched in
that case). -/
def pineconeDelete (store : List StoredVec)
    (ids : Option (List String)) (delete_all : Option Bool)
    (nspace : Option String) (flt : Option (List (String × String)))
    (selfNamespace : String) :
    Except String (List StoredVec × List (List String)) :=
  let ns := nspace.getD selfNamespace
  if delete_all.getD false then
    .ok (store.filter (fun v => !(v.ns == ns)), [])
  else
    match ids with
    | some idList =>
      let chunks := chunkList 1000 idList
      .ok (chunks.foldl (fun s c => indexDeleteByIds s ns c) store, chunks)
    | none =>
      match flt with
      | some f =>
        let matchIds := queryIds store ns f 1000
        if matchIds.length > 0 then
          .ok (indexDeleteByIds store ns matchIds, [matchIds])
        else
          .ok (store, [])
      | none => .error "Either ids, delete_all, or filter must be provided."

/-- Embedding of `AbstractModel.deindex` (`model_service/models/_abstractmodel.py`): the
default implementation forwards all four selectors unchanged to
`self.vectorstore.delete`. -/
def deindex (store : List StoredVec)
    (ids : Option (List String)) (delete_all : Option Bool)
    (nspace : Option String) (flt : Option (List (String × String)))
    (selfNamespace : String) :
    Except String (List StoredVec × List (List String)) :=
  pineconeDelete store ids delete_all nspace flt selfNamespace

/-! ### Claims C3 and C4 -/

/-- C3: deleting with only a filter runs one query capped at `top_k = 1000`
over the given namespace and filter and deletes the collected match ids;
every id batch passed to the backend has at most 1000 ids, the call never
raises, zero matches make it a no-op, and — when at most 1000 vectors match
and ids are unique within the store, as Pinecone guarantees — exactly the
matching vectors are removed and every other vector is retained. -/
theorem filter_delete_emulation :
    (∀ (store : List StoredVec) (ns sn : String) (f : List (String × String)),
        ∃ st bs,
          pineconeDelete store none none (some ns) (some f) sn = .ok (st, bs)
          ∧ ∀ b ∈ bs, b.length ≤ 1000)
    ∧ (∀ (store : List StoredVec) (ns sn : String) (f : List (String × String)),
        queryIds store ns f 1000 = [] →
        pineconeDelete store none none (some ns) (some f) sn = .ok (store, []))
    ∧ (∀ (store : List StoredVec) (ns sn : String) (f : List (String × String)),
        (store.map fun v => (v.ns, v.id)).Nodup →
        (store.filter (vecMatches ns f)).length ≤ 1000 →
        ∃ bs,
          pineconeDelete store none none (some ns) (some f) sn =
            .ok (store.filter (fun v => !(vecMatches ns f v)), bs)) := by
  refine ⟨?_, ?_, ?_⟩
  · intro store ns sn f
    simp only [pineconeDelete, Option.getD]
    by_cases h : (queryIds store ns f 1000).length > 0
    · rw [if_pos h]
      refine ⟨_, _, rfl, ?_⟩
      intro b hb
      simp only [List.mem_singleton] at hb
      subst hb
      simp only [queryIds, List.length_take]
      exact Nat.min_le_left _ _
    · rw [if_neg h]
      exact ⟨store, [], rfl, by simp⟩
  · intro store ns sn f hq
    simp only [pineconeDelete, Option.getD, hq]
    rfl
  · intro store ns sn f hnd hle
    have hids : queryIds store ns f 1000 = (store.filter (vecMatches ns f)).map StoredVec.id := by
      simp only [queryIds]
      exact List.take_of_length_le (by simpa using hle)
    have key : ∀ v ∈ store,
        (v.ns == ns && (queryIds store ns f 1000).contains v.id) = vecMatches ns f v := by
      intro v hv
      by_cases hns : v.ns = ns
      · rw [beq_iff_eq.mpr hns, Bool.true_and, hids]
        by_cases hm : vecMatches ns f v = true
        · rw [hm]
          exact List.elem_eq_true_of_mem
            (List.mem_map.mpr ⟨v, List.mem_filter.mpr ⟨hv, hm⟩, rfl⟩)
        · rw [Bool.not_eq_true] at hm
          rw [hm]
          by_contra hcon
          rw [Bool.not_eq_false] at hcon
          obtain ⟨w, hw, hwid⟩ := List.mem_map.mp (List.mem_of_elem_eq_true hcon)
          have hwmem : w ∈ store := List.mem_of_mem_filter hw
          have hwmatch : vecMatches ns f w = true := List.of_mem_filter hw
          have hwns : w.ns = ns := by
            simp only [vecMatches, Bool.and_eq_true, beq_iff_eq] at hwmatch
            exact hwmatch.1
          have hkey : (fun v : StoredVec => (v.ns, v.id)) w
              = (fun v : StoredVec => (v.ns, v.id)) v := by
            simp only [Prod.mk.injEq]
            exact ⟨hwns.trans hns.symm, hwid⟩
          have : w = v := List.inj_on_of_nodup_map hnd hwmem hv hkey
          subst this
          rw [hwmatch] at hm
          exact Bool.true_eq_false.mp hm
      · rw [beq_eq_false_iff_ne.mpr hns, Bool.false_and]
        simp only [vecMatches, beq_eq_false_iff_ne.mpr hns, Bool.false_and]
    by_cases hz : (store.filter (vecMatches ns f)).length = 0
    · have hfnil : store.filter (vecMatches ns f) = [] := List.length_eq_zero.mp hz
      have hnone : ∀ v ∈ store, ¬ (vecMatches ns f v = true) := List.filter_eq_nil_iff.mp hfnil
      have hself : store.filter (fun v => !(vecMatches ns f v)) = store :=
        List.filter_eq_self.mpr (fun v hv => by
          simp only [Bool.not_eq_true']
          exact Bool.not_eq_true _ |>.mp (hnone v hv))
      have hqnil : queryIds store ns f 1000 = [] := by rw [hids, hfnil]; rfl
      refine ⟨[], ?_⟩
      simp only [pineconeDelete, Option.getD, hqnil]
      simp [hself]
    · refine ⟨[queryIds store ns f 1000], ?_⟩
      have hpos : (queryIds store ns f 1000).length > 0 := by
        rw [hids, List.length_map]
        omega
      simp only [pineconeDelete, Option.getD]
      rw [if_pos hpos]
      have hdel : indexDeleteByIds store ns (queryIds store ns f 1000)
          = store.filter (fun v => !(vecMatches ns f v)) := by
        simp only [indexDeleteByIds]
        exact List.filter_congr (fun v hv => congrArg Bool.not (key v hv))
      rw [hdel]
      rfl

/-- Witness for `filter_delete_emulation` on a concrete store: a namespace
with four vectors, two of which match the filter; the two matching vectors
are removed and the others retained, and the empty store is a no-op. -/
theorem filter_delete_emulation_witness :
    (∃ st bs,
        pineconeDelete
          [⟨"u1", "a", [("file_id", "f1")]⟩, ⟨"u1", "b", [("file_id", "f1")]⟩,
           ⟨"u1", "c", [("file_id", "f2")]⟩, ⟨"u2", "d", [("file_id", "f1")]⟩]
          none none (some "u1") (some [("file_id", "f1")]) "dflt" = .ok (st, bs)
        ∧ ∀ b ∈ bs, b.length ≤ 1000)
    ∧ pineconeDelete [] none none (some "u1") (some [("k", "v")]) "dflt" = .ok ([], [])
    ∧ ∃ bs,
        pineconeDelete
          [⟨"u1", "a", [("file_id", "f1")]⟩, ⟨"u1", "b", [("file_id", "f1")]⟩,
           ⟨"u1", "c", [("file_id", "f2")]⟩, ⟨"u2", "d", [("file_id", "f1")]⟩]
          none none (some "u1") (some [("file_id", "f1")]) "dflt" =
          .ok ([⟨"u1", "c", [("file_id", "f2")]⟩, ⟨"u2", "d", [("file_id", "f1")]⟩], bs) := by
  refine ⟨filter_delete_emulation.1 _ "u1" "dflt" _,
    filter_delete_emulation.2.1 [] "u1" "dflt" [("k", "v")] (by decide), ?_⟩
  have h := filter_delete_emulation.2.2
    [⟨"u1", "a", [("file_id", "f1")]⟩, ⟨"u1", "b", [("file_id", "f1")]⟩,
     ⟨"u1", "c", [("file_id", "f2")]⟩, ⟨"u2", "d", [("file_id", "f1")]⟩]
    "u1" "dflt" [("file_id", "f1")] (by decide) (by decide)
  obtain ⟨bs, hbs⟩ := h
  exact ⟨bs, by rw [hbs]; rfl⟩

/-- C4: calling `deindex` (and thus the adapter `delete`) with none of `ids`,
`delete_all`, `filter` effectively provided — all `None`, or with only the
falsy `delete_all=False` — fails immediately with `ValueError` and performs
no deletion (no `.ok` state is ever produced). -/
theorem deindex_requires_selector :
    ∀ (store : List StoredVec) (nspace : Option String) (sn : String),
      deindex store none none nspace none sn =
        .error "Either ids, delete_all, or filter must be provided."
      ∧ deindex store none (some false) nspace none sn =
        .error "Either ids, delete_all, or filter must be provided." :=
  fun _ _ _ => ⟨rfl, rfl⟩

/-! ## Summarization routing (`model_service/models/abm_router_v1_si.py`)

`ABMRouterV1SI.index` builds the summarization chain around:

```python
def _route(document: Document):
    encoding = tiktoken.encoding_for_model(self.index_llm.model_name)
    num_tokens = len(encoding.encode(document.page_content))
    if num_tokens <= self.llm_token_limit:
        return stuff_chain
    else:
        return map_reduce_chain
```

The tokenizer is an oracle `encode : String → List Nat` (the token sequence
`tiktoken` produces for the index model). -/

/-- The two summarization paths the router chooses between. -/
inductive SummarizePath where
  | stuff
  | mapReduce
deriving DecidableEq, Repr

/-- The `_route` closure of `ABMRouterV1SI.index`. -/
def routeSummarize (encode : String → List Nat) (llm_token_limit : Nat)
    (page_content : String) : SummarizePath :=
  if (encode page_content).length ≤ llm_token_limit then .stuff else .mapReduce

/-- C5: a document whose estimated token count is at most `llm_token_limit`
takes the stuff path and one whose count strictly exceeds it takes the
map-reduce path; in particular a count of exactly `T` routes to stuff and
`T + 1` routes to map-reduce. -/
theorem route_decision_boundary :
    ∀ (encode : String → List Nat) (T : Nat) (doc : String),
      (routeSummarize encode T doc = .stuff ↔ (encode doc).length ≤ T)
      ∧ ((encode doc).length = T → routeSummarize encode T doc = .stuff)
      ∧ ((encode doc).length = T + 1 → routeSummarize encode T doc = .mapReduce) := by
  intro encode T doc
  refine ⟨?_, ?_, ?_⟩
  · unfold routeSummarize
    split
    · simp_all
    · simp_all
  · intro h
    unfold routeSummarize
    rw [if_pos (le_of_eq h)]
  · intro h
    unfold routeSummarize
    rw [if_neg (by omega)]

/-- Witness for `route_decision_boundary`: with a tokenizer producing one
token per character, a 3-character document routes to stuff at limit 3 and
to map-reduce at limit 2. -/
theorem route_decision_boundary_witness :
    routeSummarize (fun s => s.toList.map Char.toNat) 3 "abc" = .stuff
    ∧ routeSummarize (fun s => s.toList.map Char.toNat) 2 "abc" = .mapReduce :=
  ⟨(route_decision_boundary (fun s => s.toList.map Char.toNat) 3 "abc").2.1 (by decide),
   (route_decision_boundary (fun s => s.toList.map Char.toNat) 2 "abc").2.2 (by decide)⟩

/-! ## Reserved metadata handling (`app/ops/project_ops.py`)

```python
SYSTEM_METADATA_KEYS = ["project_id", "file_id", "user_id"]

def check_file_metadatas(metadatas) -> dict:
    ...
    for key in metadatas[file_id].keys():
        if key in SYSTEM_METADATA_KEYS:
            del metadatas[file_id][key]   # mutates the dict being iterated
    ...

def clean_system_metadata(data):
    if not isinstance(data, Document):
        return data
    for doc in data:
        for key in SYSTEM_METADATA_KEYS:
            if key in doc.metadata.keys():
                del doc.metadata[key]
    return data
```

A Python dict is modelled as an insertion-ordered association list.  CPython's
dict-keys iterator checks on every `next()` that the dict's size is unchanged;
after `del` removes an entry, the next advance raises
`RuntimeError: dictionary changed size during iteration`.  The loop therefore
survives only dicts containing no reserved key. -/

/-- The reserved metadata keys of `app/ops/project_ops.py`. -/
def SYSTEM_METADATA_KEYS : List String := ["project_id", "file_id", "user_id"]

/-- The inner `for key in metadatas[file_id].keys()` loop of
`check_file_metadatas`, with CPython iterator-invalidation semantics: a
non-reserved key is kept and iteration continues; a reserved key is deleted,
after which the iterator's next advance raises `RuntimeError`. -/
def strip_reserved_keys_loop :
    List (String × String) → Except String (List (String × String))
  | [] => .ok []
  | (k, v) :: rest =>
    if SYSTEM_METADATA_KEYS.contains k then
      .error "RuntimeError: dictionary changed size during iteration"
    else
      (strip_reserved_keys_loop rest).map (fun r => (k, v) :: r)

/-- A langchain `Document`: page content plus a metadata dict. -/
structure PyDoc where
  page_content : String
  metadata : List (String × String)
deriving DecidableEq, Repr, Inhabited

/-- Embedding of `clean_system_metadata` from `app/ops/project_ops.py`.  Its guard is
`if not isinstance(data, Document): return data`; the argument is a *list* of
Documents, which is not a `Document`, so the function returns its argument
unchanged and the cleaning loop below the guard is unreachable. -/
def clean_system_metadata (data : List PyDoc) : List PyDoc :=
  data

/-- C6: the code meant to strip user-supplied metadata entries that collide
with system-reserved keys instead raises `RuntimeError` on any file metadata
dict containing a reserved key (the dict is mutated while its keys are being
iterated), and the output-side `clean_system_metadata` leaves returned
documents untouched because of its inverted `isinstance` guard; user metadata
without reserved keys passes through unchanged. -/
theorem reserved_metadata_strip_raises :
    strip_reserved_keys_loop [("project_id", "user-injected")] =
      .error "RuntimeError: dictionary changed size during iteration"
    ∧ strip_reserved_keys_loop [("topic", "cats"), ("user_id", "evil")] =
      .error "RuntimeError: dictionary changed size during iteration"
    ∧ strip_reserved_keys_loop [("topic", "cats")] = .ok [("topic", "cats")]
    ∧ clean_system_metadata [⟨"text", [("project_id", "p1"), ("topic", "cats")]⟩] =
      [⟨"text", [("project_id", "p1"), ("topic", "cats")]⟩]
    ∧ (∀ d : List (String × String),
        (∃ kv ∈ d, SYSTEM_METADATA_KEYS.contains kv.1) →
        strip_reserved_keys_loop d =
          .error "RuntimeError: dictionary changed size during iteration") := by
  refine ⟨rfl, rfl, rfl, rfl, ?_⟩
  intro d
  induction d with
  | nil => rintro ⟨kv, hkv, _⟩; simp at hkv
  | cons hd tl ih =>
    rintro ⟨kv, hkv, hres⟩
    rcases List.mem_cons.mp hkv with h | h
    · subst h
      simp only [strip_reserved_keys_loop, hres]
      rfl
    · simp only [strip_reserved_keys_loop]
      by_cases hhd : SYSTEM_METADATA_KEYS.contains hd.1
      · rw [if_pos hhd]
      · rw [if_neg hhd, ih ⟨kv, h, hres⟩]
        rfl

/-- Witness for `reserved_metadata_strip_raises`: a concrete dict whose
second entry collides with a reserved key makes the loop raise. -/
theorem reserved_metadata_strip_raises_witness :
    strip_reserved_keys_loop [("a", "1"), ("file_id", "x")] =
      .error "RuntimeError: dictionary changed size during iteration" :=
  reserved_metadata_strip_raises.2.2.2.2 [("a", "1"), ("file_id", "x")]
    ⟨("file_id", "x"), by decide, by decide⟩

/-! ## Reranking (`model_service/models/rag_rerank_v1_ch.py`,
`model_service/components/reranking.py`)

`Reranker.invoke`:

```python
documents = documents_and_query["documents"]
query = documents_and_query["query"]
ids = reranker.rerank(documents, query)
return [documents[index["index"]] for index in ids]
```

`RAGRerankV1CH.invoke` retrieves with `search_kwargs = {"k": self.k_retrieve,
"filter": filters}` and builds `CohereRerank(top_n=self.k_rerank)` as the
reranker.  The external pieces are oracles: `search query k` is the
similarity-search result and `rerank top_n docs query` the index sequence the
Cohere model returns (best first, `top_n`-truncated).  Python raises
`IndexError` for an out-of-range index, modelled by the `Option` result. -/

/-- Embedding of `Reranker.invoke` from `model_service/components/reranking.py`. -/
def rerankerInvoke (rerank : List PyDoc → String → List Nat)
    (documents_and_query : List PyDoc × String) : Option (List PyDoc) :=
  let documents := documents_and_query.1
  let query := documents_and_query.2
  let ids := rerank documents query
  ids.mapM fun i => documents.get? i

/-- Embedding of `RAGRerankV1CH.invoke`: similarity-retrieve `k_retrieve` candidates, then
rerank them with a Cohere reranker constructed with `top_n = k_rerank`. -/
def ragRerankInvoke (search : String → Nat → List PyDoc)
    (rerank : Nat → List PyDoc → String → List Nat)
    (k_retrieve k_rerank : Nat) (input_data : String) : Option (List PyDoc) :=
  let documents := search input_data k_retrieve
  rerankerInvoke (rerank k_rerank) (documents, input_data)

theorem mapM_get?_of_lt (l : List PyDoc) :
    ∀ ids : List Nat, (∀ i ∈ ids, i < l.length) →
      ids.mapM l.get? = some (ids.map fun i => l.getD i default) := by
  intro ids
  induction ids with
  | nil => intro _; rfl
  | cons i rest ih =>
    intro h
    have hi : i < l.length := h i (List.mem_cons_self i rest)
    have hsome : l.get? i = some (l.getD i default) := by
      rw [List.getD_eq_getElem?_getD]
      cases hg : l[i]? with
      | none =>
        rw [List.getElem?_eq_none_iff] at hg
        omega
      | some x => simp [List.get?_eq_getElem?, hg]
    rw [List.mapM_cons, hsome, ih (fun j hj => h j (List.mem_cons_of_mem i hj))]
    rfl

/-- C7: when the external reranker returns valid candidate indices truncated
at `top_n = k_rerank` (length `min k_rerank (number of candidates)`), the
pipeline retrieves `k_retrieve` candidates, returns exactly the reranker's
ranking mapped back to documents — the order is the reranker's, with no
secondary sort — and the result has `min k_rerank (number of candidates)`
documents. -/
theorem rerank_returns_reranker_order :
    ∀ (search : String → Nat → List PyDoc)
      (rerank : Nat → List PyDoc → String → List Nat)
      (k_retrieve k_rerank : Nat) (q : String),
      (∀ i ∈ rerank k_rerank (search q k_retrieve) q, i < (search q k_retrieve).length) →
      (rerank k_rerank (search q k_retrieve) q).length
          = min k_rerank (search q k_retrieve).length →
      ragRerankInvoke search rerank k_retrieve k_rerank q =
        some ((rerank k_rerank (search q k_retrieve) q).map
          fun i => (search q k_retrieve).getD i default)
      ∧ ∀ out, ragRerankInvoke search rerank k_retrieve k_rerank q = some out →
          out.length = min k_rerank (search q k_retrieve).length := by
  intro search rerank k_retrieve k_rerank q hvalid hlen
  have heq : ragRerankInvoke search rerank k_retrieve k_rerank q =
      some ((rerank k_rerank (search q k_retrieve) q).map
        fun i => (search q k_retrieve).getD i default) := by
    simp only [ragRerankInvoke, rerankerInvoke]
    exact mapM_get?_of_lt (search q k_retrieve) _ hvalid
  refine ⟨heq, ?_⟩
  intro out hout
  rw [heq] at hout
  have h2 : (rerank k_rerank (search q k_retrieve) q).map
      (fun i => (search q k_retrieve).getD i default) = out :=
    Option.some_injective _ hout
  rw [← h2, List.length_map, hlen]

/-- Witness for `rerank_returns_reranker_order`: 10 candidates, `k_retrieve =
10`, `k_rerank = 3`, a reranker answering `[4, 0, 7]` — the invocation
returns exactly documents 4, 0 and 7 in that order. -/
theorem rerank_returns_reranker_order_witness :
    ragRerankInvoke
      (fun _ k => (List.range k).map fun n => ⟨toString n, []⟩)
      (fun _ _ _ => [4, 0, 7]) 10 3 "query" =
      some [⟨"4", []⟩, ⟨"0", []⟩, ⟨"7", []⟩] := by
  have h := (rerank_returns_reranker_order
    (fun _ k => (List.range k).map fun n => ⟨toString n, []⟩)
    (fun _ _ _ => [4, 0, 7]) 10 3 "query" (by decide) (by decide)).1
  rw [h]
  rfl

/-! ## Strategy configuration (`model_service/models/abm_router_v1_si.py`)

`ABMRouterV1SI.__init__` binds `index_llm`, `invoke_llm`, `llm_token_limit`,
`chunk_size = 1500`, `chunk_overlap = 50`, `chunk_size_si = 40000`,
`chunk_overlap_si = 2000`, `k = 5`.  `index` begins with

```python
if self.index_llm is None:
    self.index_llm = ChatOpenAI(temperature=0, model_name="gpt-3.5-turbo-16k")
    self.llm_token_limit = 16000
else:
    if not self.llm_token_limit:
        raise ValueError("llm_token_limit must be set if llm is provided")
```

and `invoke` contains

```python
if self.invoke_llm is None:
    self.invoke_llm = ChatOpenAI(temperature=0, model_name="gpt-4-turbo")
```

No other statement of `index`, `invoke` or `deindex` assigns to a `self`
attribute.  The functions below embed the effect of each call on the
instance's configuration (`not self.llm_token_limit` is true for both `None`
and `0` in Python). -/

/-- A bound chat-model configuration (`ChatOpenAI(temperature, model_name)`). -/
structure ChatModelCfg where
  temperature : Nat
  model_name : String
deriving DecidableEq, Repr

/-- The configuration fields of an `ABMRouterV1SI` instance. -/
structure RouterConfig where
  index_llm : Option ChatModelCfg
  invoke_llm : Option ChatModelCfg
  llm_token_limit : Option Nat
  chunk_size : Nat
  chunk_overlap : Nat
  chunk_size_si : Nat
  chunk_overlap_si : Nat
  k : Nat
deriving DecidableEq, Repr

/-- Constructor `ABMRouterV1SI.__init__` with its default arguments. -/
def mkRouterConfig (index_llm : Option ChatModelCfg := none)
    (invoke_llm : Option ChatModelCfg := none)
    (llm_token_limit : Option Nat := none)
    (chunk_size : Nat := 1500) (chunk_overlap : Nat := 50)
    (chunk_size_si : Nat := 40000) (chunk_overlap_si : Nat := 2000)
    (k : Nat := 5) : RouterConfig :=
  ⟨index_llm, invoke_llm, llm_token_limit, chunk_size, chunk_overlap,
   chunk_size_si, chunk_overlap_si, k⟩

/-- Effect of one `ABMRouterV1SI.index` call on the instance configuration. -/
def routerIndexConfigEffect (s : RouterConfig) : Except String RouterConfig :=
  if s.index_llm = none then
    .ok { s with
          index_llm := some ⟨0, "gpt-3.5-turbo-16k"⟩,
          llm_token_limit := some 16000 }
  else
    match s.llm_token_limit with
    | none => .error "llm_token_limit must be set if llm is provided"
    | some n =>
      if n = 0 then .error "llm_token_limit must be set if llm is provided"
      else .ok s

/-- Effect of one `ABMRouterV1SI.invoke` call on the instance configuration. -/
def routerInvokeConfigEffect (s : RouterConfig) : RouterConfig :=
  if s.invoke_llm = none then
    { s with invoke_llm := some ⟨0, "gpt-4-turbo"⟩ }
  else s

/-- Effect of one `deindex` call on the instance configuration: the inherited
default only calls `self.vectorstore.delete` and assigns no attribute. -/
def routerDeindexConfigEffect (s : RouterConfig) : RouterConfig :=
  s

/-- C8: counterexample to the original immutability claim.  On an
`ABMRouterV1SI` constructed with the default `index_llm=None`, the first
`index` call overwrites the instance's `index_llm` and `llm_token_limit`
configuration fields, and the first `invoke` call overwrites `invoke_llm`. -/
theorem strategy_config_mutated_counterexample :
    (routerIndexConfigEffect mkRouterConfig).map RouterConfig.llm_token_limit =
      .ok (some 16000)
    ∧ mkRouterConfig.llm_token_limit = none
    ∧ (routerInvokeConfigEffect mkRouterConfig).invoke_llm = some ⟨0, "gpt-4-turbo"⟩
    ∧ mkRouterConfig.invoke_llm = none :=
  ⟨rfl, rfl, rfl, rfl⟩

/-- C8 (amended): the pipeline-shape configuration (chunk sizes, overlaps,
`k`) is never changed by `index`, `invoke` or `deindex`; the only mutation is
the lazy defaulting of the bound language models — when `index_llm`
(respectively `invoke_llm`) was provided at construction, `index`
(respectively `invoke`) leaves the whole configuration unchanged, and
`deindex` never changes anything. -/
theorem strategy_config_immutable_amended :
    (∀ s s', routerIndexConfigEffect s = .ok s' →
        s'.chunk_size = s.chunk_size ∧ s'.chunk_overlap = s.chunk_overlap
        ∧ s'.chunk_size_si = s.chunk_size_si
        ∧ s'.chunk_overlap_si = s.chunk_overlap_si
        ∧ s'.k = s.k ∧ s'.invoke_llm = s.invoke_llm)
    ∧ (∀ s l, s.index_llm = some l →
        ∀ s', routerIndexConfigEffect s = .ok s' → s' = s)
    ∧ (∀ s, (routerInvokeConfigEffect s).chunk_size = s.chunk_size
        ∧ (routerInvokeConfigEffect s).chunk_overlap = s.chunk_overlap
        ∧ (routerInvokeConfigEffect s).chunk_size_si = s.chunk_size_si
        ∧ (routerInvokeConfigEffect s).chunk_overlap_si = s.chunk_overlap_si
        ∧ (routerInvokeConfigEffect s).k = s.k
        ∧ (routerInvokeConfigEffect s).index_llm = s.index_llm
        ∧ (routerInvokeConfigEffect s).llm_token_limit = s.llm_token_limit)
    ∧ (∀ s, s.invoke_llm ≠ none → routerInvokeConfigEffect s = s)
    ∧ (∀ s, routerDeindexConfigEffect s = s) := by
  refine ⟨?_, ?_, ?_, ?_, fun _ => rfl⟩
  · intro s s' h
    unfold routerIndexConfigEffect at h
    split at h
    · cases h
      exact ⟨rfl, rfl, rfl, rfl, rfl, rfl⟩
    · split at h
      · cases h
      · split at h
        · cases h
        · cases h
          exact ⟨rfl, rfl, rfl, rfl, rfl, rfl⟩
  · intro s l hl s' h
    unfold routerIndexConfigEffect at h
    rw [if_neg (by simp [hl])] at h
    split at h
    · cases h
    · split at h
      · cases h
      · cases h
        rfl
  · intro s
    unfold routerInvokeConfigEffect
    split
    · exact ⟨rfl, rfl, rfl, rfl, rfl, rfl, rfl⟩
    · exact ⟨rfl, rfl, rfl, rfl, rfl, rfl, rfl⟩
  · intro s h
    unfold routerInvokeConfigEffect
    rw [if_neg h]

/-- Witness for `strategy_config_immutable_amended`: an instance constructed
with both language models and a token limit is left completely unchanged by
`index` and `invoke`. -/
theorem strategy_config_immutable_amended_witness :
    (mkRouterConfig (some ⟨0, "m"⟩) (some ⟨0, "m2"⟩) (some 100)) =
      mkRouterConfig (some ⟨0, "m"⟩) (some ⟨0, "m2"⟩) (some 100)
    ∧ routerInvokeConfigEffect (mkRouterConfig (some ⟨0, "m"⟩) (some ⟨0, "m2"⟩) (some 100)) =
      mkRouterConfig (some ⟨0, "m"⟩) (some ⟨0, "m2"⟩) (some 100) := by
  refine ⟨?_, strategy_config_immutable_amended.2.2.2.1 _ (by decide)⟩
  have h : routerIndexConfigEffect (mkRouterConfig (some ⟨0, "m"⟩) (some ⟨0, "m2"⟩) (some 100)) =
      .ok (mkRouterConfig (some ⟨0, "m"⟩) (some ⟨0, "m2"⟩) (some 100)) := rfl
  exact strategy_config_immutable_amended.2.1 _ ⟨0, "m"⟩ rfl _ h

/-! ## Agent retrieval tools (`model_service/models/abm_router_v1_si.py`,
`model_service/models/abm_react_v1_si.py`)

Both agent strategies build their two retrieval tools like this:

```python
search_kwargs = {"k": self.k, "filter": filters}
...
search_kwargs['filter']['is_summary'] = False
chunk_retriever = self.vectorstore.as_retriever(
    search_type="similarity", search_kwargs=search_kwargs)

search_kwargs['filter']['is_summary'] = True
summary_retriever = self.vectorstore.as_retriever(
    search_type="similarity", search_kwargs=search_kwargs)
```

`search_kwargs['filter']` is a *reference* to the caller's `filters` dict.
`as_retriever` stores `search_kwargs` in the retriever (pydantic validation
shallow-copies the outer dict; the nested `filter` value stays the same
object), so both retrievers hold the same filter dict, which is mutated to
`is_summary=True` after the chunk retriever is built.  The model below makes
the shared dict explicit as heap address `0`: each retriever records the
address of its filter dict, and both `is_summary` assignments update the one
heap cell in program order.  Retrieval reads the filter through the address
at query time, as the langchain retriever does. -/

/-- A Python metadata value (string or boolean). -/
inductive PyVal where
  | s (v : String)
  | b (v : Bool)
deriving DecidableEq, Repr

/-- A Python dict with string keys, as an insertion-ordered association list. -/
abbrev PyDict := List (String × PyVal)

/-- Python dict assignment `d[key] = v`: update in place, or append. -/
def dictSet (d : PyDict) (key : String) (v : PyVal) : PyDict :=
  if d.any (fun kv => kv.1 == key) then
    d.map fun kv => if kv.1 == key then (key, v) else kv
  else d ++ [(key, v)]

/-- Retriever state as configured by `as_retriever`: the search type,
the `k` from `search_kwargs`, and the heap address of its filter dict. -/
structure VSRetriever where
  search_type : String
  k : Nat
  filterAddr : Nat
deriving DecidableEq, Repr

/-- The two retrieval tools handed to the agent, plus the heap of filter
dicts they point into. -/
structure AgentToolsEnv where
  heap : List PyDict
  chunk_retriever : VSRetriever
  summary_retriever : VSRetriever
deriving DecidableEq, Repr

/-- The retriever-construction prefix shared by `ABMRouterV1SI.invoke` and
`ABMReActV1SI.invoke`.  Address `0` holds the caller's `filters` dict, which
`search_kwargs['filter']` aliases. -/
def routerInvokeToolSetup (k : Nat) (filters : PyDict) : AgentToolsEnv :=
  let fAddr := 0
  let f1 := dictSet filters "is_summary" (.b false)
  let chunk_retriever : VSRetriever := ⟨"similarity", k, fAddr⟩
  let f2 := dictSet f1 "is_summary" (.b true)
  let summary_retriever : VSRetriever := ⟨"similarity", k, fAddr⟩
  ⟨[f2], chunk_retriever, summary_retriever⟩

/-- The filter dict a retriever actually uses when it executes a query. -/
def effectiveFilter (env : AgentToolsEnv) (r : VSRetriever) : PyDict :=
  env.heap.getD r.filterAddr []

/-- A stored document with typed metadata, as seen by the retrievers. -/
structure VDoc where
  page_content : String
  metadata : PyDict
deriving DecidableEq, Repr

/-- Metadata filter match for typed values. -/
def pyMatches (flt : PyDict) (meta : PyDict) : Bool :=
  flt.all fun kv => meta.lookup kv.1 == some kv.2

/-- Similarity retrieval through a retriever at query time: documents
matching the retriever's (current) filter dict, truncated at `k`. -/
def retrieveWith (env : AgentToolsEnv) (r : VSRetriever) (docs : List VDoc) :
    List VDoc :=
  (docs.filter fun d => pyMatches (effectiveFilter env r) d.metadata).take r.k

/-- C9: the two retrieval tools do **not** have disjoint scopes.  Both
retrievers alias the same filter dict; after the setup it holds
`is_summary=True`, so at query time the chunk retriever's filter also
demands `is_summary=True`: on a namespace containing one chunk document
(`is_summary=false`) and one summary document (`is_summary=true`), the
chunk retriever returns the summary document and not the chunk. -/
theorem chunk_tool_filter_aliased_to_summary :
    (routerInvokeToolSetup 5 [("project_id", .s "p1")]).chunk_retriever.filterAddr =
      (routerInvokeToolSetup 5 [("project_id", .s "p1")]).summary_retriever.filterAddr
    ∧ (effectiveFilter (routerInvokeToolSetup 5 [("project_id", .s "p1")])
        (routerInvokeToolSetup 5 [("project_id", .s "p1")]).chunk_retriever).lookup
        "is_summary" = some (.b true)
    ∧ retrieveWith (routerInvokeToolSetup 5 [("project_id", .s "p1")])
        (routerInvokeToolSetup 5 [("project_id", .s "p1")]).chunk_retriever
        [⟨"chunk text", [("project_id", .s "p1"), ("is_summary", .b false)]⟩,
         ⟨"summary text", [("project_id", .s "p1"), ("is_summary", .b true)]⟩] =
        [⟨"summary text", [("project_id", .s "p1"), ("is_summary", .b true)]⟩] := by
  refine ⟨rfl, rfl, ?_⟩
  rfl

end RAGbuilder
